import Mathlib

/- Verification of the prayer-times computation of the `islam` repository
   (src/src/salah/times.rs).  The decimal-hour pipeline, the decimal-to-time
   conversion, the current/next lookup and the remaining-time computation are
   shallowly embedded below; exact rational arithmetic stands in for the f32
   arithmetic of the source.  The solar kernel (the `cal` module: equation of
   time, degree-based trigonometry, Julian and Hijri conversion) and the
   configuration/`Prayer` types are not part of the provided sources and are
   modelled from the specification. -/

/-- Modelled from the spec: the closed enumeration of the six canonical
prayer labels (spec section 3, `Prayer`). -/
inductive Prayer where
  | Fajr
  | Sherook
  | Dohr
  | Asr
  | Maghreb
  | Ishaa
deriving DecidableEq, Repr

/-- A calendar date-time: a day index (days since an arbitrary epoch, the
calendar-date component) plus hour/minute/second, as produced by chrono's
`and_hms_opt` in the source. -/
structure DateTime where
  day : Int
  h : Nat
  m : Nat
  s : Nat
deriving DecidableEq, Repr

/-- The instant of a date-time on the absolute timeline, in seconds.  The
chronological order used by the source's `DateTime` comparisons is the order
of this value. -/
def instant (t : DateTime) : Int :=
  86400 * t.day + 3600 * (t.h : Int) + 60 * (t.m : Int) + (t.s : Int)

/-- A well-formed time-of-day, as enforced by chrono's `and_hms_opt`. -/
def wf (t : DateTime) : Prop := t.h < 24 ∧ t.m < 60 ∧ t.s < 60

instance (t : DateTime) : Decidable (wf t) := by
  unfold wf; infer_instance

/-- Truncation toward zero, the rounding of Rust's float-to-integer `as`
casts and of `f32::trunc`. -/
def ratTrunc (q : ℚ) : Int :=
  if q < 0 then -⌊-q⌋ else ⌊q⌋

/-- Rust's `as u32` cast on a float: truncate toward zero and saturate into
`[0, 2^32 - 1]`. -/
def asU32 (q : ℚ) : Nat :=
  if q < 0 then 0 else min (ratTrunc q).toNat 4294967295

/-- Rust's `%` on floats: the remainder of truncating division (the sign of
the result follows the dividend). -/
def f32rem (a b : ℚ) : ℚ := a - b * (ratTrunc (a / b) : ℚ)

/-- Modelled from the spec: chrono's `and_hms_opt`, which checks that the
hour/minute/second triple forms a valid time-of-day (spec section 4.3:
construction fails on an invalid resulting time-of-day). -/
def andHms (d : Int) (h m s : Nat) : Option DateTime :=
  if h < 24 ∧ m < 60 ∧ s < 60 then some ⟨d, h, m, s⟩ else none

/-- `Location` (times.rs lines 11-17): geographic latitude and longitude in
degrees. -/
structure Location where
  latitude : ℚ
  longitude : ℚ
deriving DecidableEq, Repr

/-- Modelled from the spec: the fixed-interval Ishaa configuration
`isha_interval` with its all-year and Ramadan minute values (spec section 3,
`Config`).  The field name `ramdan` follows the source's usage
`config.isha_interval.ramdan`. -/
structure IshaInterval where
  all_year : ℚ
  ramdan : ℚ
deriving DecidableEq, Repr

/-- Modelled from the spec: the calculation configuration (spec section 3,
`Config`): Fajr and Ishaa angles in degrees, the madhab shadow factor (1 or
2), the fixed Ishaa interval, and the summer-time flag. -/
structure Config where
  fajr_angle : ℚ
  ishaa_angle : ℚ
  madhab : ℚ
  isha_interval : IshaInterval
  is_summer : Bool
deriving DecidableEq, Repr

/-- Modelled from the spec: the per-day outputs of the solar kernel that is
absent from the provided sources — `cal::equation_of_time` composed with
`cal::gregorian_to_julian` (minutes, spec section 4.1), the hour-angle
conversion `time_for_angle` (hours, spec section 4.2; its closed formula is
embedded separately over the reals below, but its f32 value on a given day
and angle is an input here), the madhab-resolved `asr_angle` (degrees, spec
section 4.2), and the Hijri month of the day (spec section 4.1).  The
pipeline of times.rs is embedded as exact arithmetic over these outputs. -/
structure SolarKernel where
  eqt : Int → ℚ
  tfa : Int → ℚ → ℚ
  asrAngle : Int → ℚ → ℚ
  hijriMonth : Int → Int

/-- A construction context: the kernel, the injected local UTC offset in
hours (spec section 5: the ambient offset read is injected), the location,
the configuration and the construction day. -/
structure Ctx where
  k : SolarKernel
  off : Int
  loc : Location
  cfg : Config
  d : Int

/-- `longitude_difference` (times.rs lines 237-242): the middle longitude of
the local UTC offset minus the location's longitude, over 15 degrees per
hour. -/
def longitude_difference (c : Ctx) : ℚ :=
  (((c.off : ℚ) * 15) - c.loc.longitude) / 15

/-- `dohr` decimal time on a given day (times.rs lines 128-134):
`(12 + longitude_difference) + equation_of_time / 60`. -/
def dohr_time_on (c : Ctx) (d : Int) : ℚ :=
  (12 + longitude_difference c) + (c.k.eqt d / 60)

/-- `dohr` decimal time on the construction day. -/
def dohr_time (c : Ctx) : ℚ := dohr_time_on c c.d

/-- The refraction-corrected horizon angle `90.83333` used by the source for
maghreb, sherook and the fixed-interval ishaa branch. -/
def maghrebAngle : ℚ := 90.83333

/-- `asr` decimal time (times.rs lines 136-140): dohr plus the hour angle of
the madhab-dependent asr angle. -/
def asr_time (c : Ctx) : ℚ :=
  dohr_time c + c.k.tfa c.d (c.k.asrAngle c.d c.cfg.madhab)

/-- `maghreb` decimal time (times.rs lines 142-147): dohr plus the hour
angle of `90.83333`. -/
def maghreb_time (c : Ctx) : ℚ :=
  dohr_time c + c.k.tfa c.d maghrebAngle

/-- `ishaa` decimal time (times.rs lines 149-173): when the fixed interval
is configured (`all_year > 0`), the interval (Ramadan or all-year, by the
Hijri month) after maghreb; otherwise angle-based from dohr. -/
def ishaa_time (c : Ctx) : ℚ :=
  let dohr := dohr_time c
  if 0 < c.cfg.isha_interval.all_year then
    let is_ramadan := c.k.hijriMonth c.d = 9
    let time_after_maghreb :=
      if is_ramadan then c.cfg.isha_interval.ramdan / 60
      else c.cfg.isha_interval.all_year / 60
    time_after_maghreb + dohr + c.k.tfa c.d maghrebAngle
  else
    dohr + c.k.tfa c.d (c.cfg.ishaa_angle + 90)

/-- `fajr` decimal time on a given day (times.rs lines 175-185): dohr minus
the hour angle of `fajr_angle + 90`. -/
def fajr_time_on (c : Ctx) (d : Int) : ℚ :=
  dohr_time_on c d - c.k.tfa d (c.cfg.fajr_angle + 90)

/-- `fajr` decimal time on the construction day. -/
def fajr_time (c : Ctx) : ℚ := fajr_time_on c c.d

/-- `sherook` decimal time (times.rs lines 187-192): dohr minus the hour
angle of `90.83333`. -/
def sherook_time (c : Ctx) : ℚ :=
  dohr_time c - c.k.tfa c.d maghrebAngle

/-- `first_third_of_night` decimal time (times.rs lines 194-202). -/
def first_third_time (c : Ctx) : ℚ :=
  maghreb_time c + (24 - (maghreb_time c - fajr_time c)) / 3

/-- `midnight` decimal time (times.rs lines 205-209). -/
def midnight_time (c : Ctx) : ℚ :=
  maghreb_time c + (24 - (maghreb_time c - fajr_time c)) / 2

/-- `last_third_of_night` decimal time (times.rs lines 211-220). -/
def last_third_time (c : Ctx) : ℚ :=
  maghreb_time c + (2 * (24 - (maghreb_time c - fajr_time c)) / 3)

/-- `hours_to_time` (times.rs lines 222-236): convert a decimal-hour value
to a date-time on the given day.  The minute and second are extracted from
the fractional parts before the summer shift; the hour is floored, shifted
by the summer flag, reduced by the float remainder `% 24`, and all three are
cast with `as u32` before chrono validates them. -/
def hours_to_time (d : Int) (val shift : ℚ) (cfg : Config) : Option DateTime :=
  let isSummer : ℚ := if cfg.is_summer then 1 else 0
  let hour : ℚ := val + shift / 3600
  let minute : ℚ := (hour - (⌊hour⌋ : ℚ)) * 60
  let second : ℚ := (minute - (⌊minute⌋ : ℚ)) * 60
  let hour2 : ℚ := f32rem ((⌊hour + isSummer⌋ : ℚ)) 24
  andHms d (asU32 hour2) (asU32 minute) (asU32 second)

/-- The result record (times.rs lines 57-72): the nine instants of the day
plus tomorrow's fajr, together with the construction day. -/
structure PT where
  date : Int
  dohr : DateTime
  asr : DateTime
  maghreb : DateTime
  ishaa : DateTime
  fajr : DateTime
  fajrTomorrow : DateTime
  sherook : DateTime
  firstThird : DateTime
  midnight : DateTime
  lastThird : DateTime
deriving DecidableEq, Repr

/-- `PrayerTimes::new` (times.rs lines 75-126): compute each decimal time in
source order and convert each through `hours_to_time`; tomorrow's fajr is
the fajr computation re-run for the next day and attached to it. -/
def ptNew (c : Ctx) : Option PT := do
  let dohr ← hours_to_time c.d (dohr_time c) 0 c.cfg
  let asr ← hours_to_time c.d (asr_time c) 0 c.cfg
  let maghreb ← hours_to_time c.d (maghreb_time c) 0 c.cfg
  let ishaa ← hours_to_time c.d (ishaa_time c) 0 c.cfg
  let fajr ← hours_to_time c.d (fajr_time c) 0 c.cfg
  let sherook ← hours_to_time c.d (sherook_time c) 0 c.cfg
  let firstThird ← hours_to_time c.d (first_third_time c) 0 c.cfg
  let midnight ← hours_to_time c.d (midnight_time c) 0 c.cfg
  let lastThird ← hours_to_time c.d (last_third_time c) 0 c.cfg
  let fajrTomorrow ← hours_to_time (c.d + 1) (fajr_time_on c (c.d + 1)) 0 c.cfg
  pure ⟨c.d, dohr, asr, maghreb, ishaa, fajr, fajrTomorrow, sherook,
        firstThird, midnight, lastThird⟩

/-- `PrayerTimes::time` (times.rs lines 312-321): the table lookup from a
prayer to its instant. -/
def timeOf (pt : PT) : Prayer → DateTime
  | Prayer.Fajr => pt.fajr
  | Prayer.Sherook => pt.sherook
  | Prayer.Dohr => pt.dohr
  | Prayer.Asr => pt.asr
  | Prayer.Maghreb => pt.maghreb
  | Prayer.Ishaa => pt.ishaa

/-- `PrayerTimes::current_time` (times.rs lines 327-347): scan the six
half-open ranges in order, keeping the last range that contains the query
instant; the accumulator starts at the `Dohr` dummy value. -/
def currentTime (pt : PT) (t : DateTime) : Prayer :=
  let ranges : List (Prayer × DateTime × DateTime) :=
    [(Prayer.Fajr, pt.fajr, pt.sherook),
     (Prayer.Sherook, pt.sherook, pt.dohr),
     (Prayer.Dohr, pt.dohr, pt.asr),
     (Prayer.Asr, pt.asr, pt.maghreb),
     (Prayer.Maghreb, pt.maghreb, pt.ishaa),
     (Prayer.Ishaa, pt.ishaa, pt.fajrTomorrow)]
  ranges.foldl
    (fun acc pr =>
      if instant pr.2.1 ≤ instant t ∧ instant t < instant pr.2.2 then pr.1
      else acc)
    Prayer.Dohr

/-- `PrayerTimes::next` (times.rs lines 301-310) with the queried instant
made explicit: the match on the current prayer. -/
def nextTime (pt : PT) (t : DateTime) : Prayer :=
  match currentTime pt t with
  | Prayer.Fajr => Prayer.Sherook
  | Prayer.Sherook => Prayer.Dohr
  | Prayer.Dohr => Prayer.Asr
  | Prayer.Asr => Prayer.Maghreb
  | Prayer.Maghreb => Prayer.Ishaa
  | Prayer.Ishaa => Prayer.Fajr

/-- Follows the spec's words (section 4.4): the cyclic successor in the
fixed order Fajr, Sherook, Dohr, Asr, Maghreb, Ishaa, and back to Fajr. -/
def cyclicSucc : Prayer → Prayer
  | Prayer.Fajr => Prayer.Sherook
  | Prayer.Sherook => Prayer.Dohr
  | Prayer.Dohr => Prayer.Asr
  | Prayer.Asr => Prayer.Maghreb
  | Prayer.Maghreb => Prayer.Ishaa
  | Prayer.Ishaa => Prayer.Fajr

/-- Follows the spec's words (section 4.4): the prayer of the half-open
interval containing the query instant, scanning the six intervals in their
fixed order; `none` when no interval contains it. -/
def intervalOfSpec (pt : PT) (t : DateTime) : Option Prayer :=
  if instant pt.fajr ≤ instant t ∧ instant t < instant pt.sherook then some Prayer.Fajr
  else if instant pt.sherook ≤ instant t ∧ instant t < instant pt.dohr then some Prayer.Sherook
  else if instant pt.dohr ≤ instant t ∧ instant t < instant pt.asr then some Prayer.Dohr
  else if instant pt.asr ≤ instant t ∧ instant t < instant pt.maghreb then some Prayer.Asr
  else if instant pt.maghreb ≤ instant t ∧ instant t < instant pt.ishaa then some Prayer.Maghreb
  else if instant pt.ishaa ≤ instant t ∧ instant t < instant pt.fajrTomorrow then some Prayer.Ishaa
  else none

/-- Modelled from the spec: `time::one_sec_before_midnight` — the last
representable second of the query instant's day (23:59:59). -/
def oneSecBeforeMidnight (now : DateTime) : DateTime := ⟨now.day, 23, 59, 59⟩

/-- Modelled from the spec: `time::midnight` — the start (00:00:00) of the
query instant's day. -/
def midnightOf (now : DateTime) : DateTime := ⟨now.day, 0, 0, 0⟩

/-- A time-of-day re-attached to another day: used to state the spec's
"tomorrow's target" for the day-wrap case of `time_remaining`. -/
def onDay (t : DateTime) (d : Int) : DateTime := ⟨d, t.h, t.m, t.s⟩

/-- The seconds-level core of `PrayerTimes::time_remaining` (times.rs lines
273-299) with the clock injected: when the next prayer's instant is earlier
than now, the sum of the time to one second before midnight and the time
from midnight to the target; otherwise the plain difference. -/
def timeRemainingSecs (pt : PT) (now : DateTime) : Int :=
  let target := timeOf pt (nextTime pt now)
  if instant target < instant now then
    (instant (oneSecBeforeMidnight now) - instant now)
      + (instant target - instant (midnightOf now))
  else
    instant target - instant now

/-- Rust's `f64::round`: round half away from zero. -/
def roundAway (q : ℚ) : Int :=
  if q < 0 then -⌊-q + 1/2⌋ else ⌊q + 1/2⌋

/-- The (hours, minutes) extraction of `PrayerTimes::time_remaining`
(times.rs lines 291-298): seconds over 3600, the whole part truncated to
`u32`, the fractional part times 60 rounded and truncated to `u32`. -/
def timeRemainingHM (pt : PT) (now : DateTime) : Nat × Nat :=
  let nowToNext : ℚ := (timeRemainingSecs pt now : ℚ)
  let whole : ℚ := nowToNext / 60 / 60
  let fract : ℚ := whole - (ratTrunc whole : ℚ)
  (asU32 whole, asU32 ((roundAway (fract * 60) : ℚ)))

/-- Modelled from the spec: `cal::dsin`, the degree-based sine (spec section
4.2 numeric contract: degrees internally, radian conversion at the library
boundary). -/
noncomputable def dsinR (x : ℝ) : ℝ := Real.sin (x * (Real.pi / 180))

/-- Modelled from the spec: `cal::dcos`, the degree-based cosine. -/
noncomputable def dcosR (x : ℝ) : ℝ := Real.cos (x * (Real.pi / 180))

/-- The spherical-triangle cosine-rule quotient `s` computed by
`time_for_angle` (times.rs lines 255-259) from the angle, the latitude and
the day's declination. -/
noncomputable def sQuot (angle lat delta : ℝ) : ℝ :=
  (dcosR angle - dsinR lat * dsinR delta) / (dcosR lat * dcosR delta)

/-- `time_for_angle` (times.rs lines 255-260) over the reals, with the
declination abstracted: the arctangent form of the hour angle of `s`,
divided by 15 degrees per hour. -/
noncomputable def timeForAngleR (angle lat delta : ℝ) : ℝ :=
  let s := sQuot angle lat delta
  (180 / Real.pi * (Real.arctan (-s / Real.sqrt ((-s) * s + 1)) + Real.pi / 2)) / 15

/-- The date-time value that `hours_to_time` produces (it always produces
one in exact arithmetic; the source's failure mode arises only from f32
NaNs). -/
def httDT (d : Int) (val : ℚ) (cfg : Config) : DateTime :=
  let isSummer : ℚ := if cfg.is_summer then 1 else 0
  let minute : ℚ := (val - (⌊val⌋ : ℚ)) * 60
  let second : ℚ := (minute - (⌊minute⌋ : ℚ)) * 60
  let hour2 : ℚ := f32rem ((⌊val + isSummer⌋ : ℚ)) 24
  ⟨d, asU32 hour2, asU32 minute, asU32 second⟩

/-- The record that `PrayerTimes::new` produces in exact arithmetic. -/
def ptVal (c : Ctx) : PT :=
  { date := c.d
    dohr := httDT c.d (dohr_time c) c.cfg
    asr := httDT c.d (asr_time c) c.cfg
    maghreb := httDT c.d (maghreb_time c) c.cfg
    ishaa := httDT c.d (ishaa_time c) c.cfg
    fajr := httDT c.d (fajr_time c) c.cfg
    fajrTomorrow := httDT (c.d + 1) (fajr_time_on c (c.d + 1)) c.cfg
    sherook := httDT c.d (sherook_time c) c.cfg
    firstThird := httDT c.d (first_third_time c) c.cfg
    midnight := httDT c.d (midnight_time c) c.cfg
    lastThird := httDT c.d (last_third_time c) c.cfg }

/-- The same context with the summer flag switched on (every other input
unchanged). -/
def summerCtx (c : Ctx) : Ctx := { c with cfg := { c.cfg with is_summer := true } }

/-- The summer-shift field relation of claim C8: same day, hour advanced by
one modulo 24, minute and second unchanged. -/
def shifted (b a : DateTime) : Prop :=
  b.day = a.day ∧ b.h = (a.h + 1) % 24 ∧ b.m = a.m ∧ b.s = a.s

/-- A sample equatorial construction context with a well-ordered schedule:
dohr 12:00, asr 15:00, maghreb 18:00, angle-based ishaa 19:00, fajr 04:30,
sherook 06:00, tomorrow's fajr 04:30. -/
def ctxGood : Ctx :=
  { k := { eqt := fun _ => 0
           tfa := fun _ a =>
             if a = maghrebAngle then 6
             else if a = 108 then 15/2
             else if a = 107 then 7
             else 3
           asrAngle := fun _ _ => 45
           hijriMonth := fun _ => 8 }
    off := 0
    loc := ⟨0, 0⟩
    cfg := { fajr_angle := 18, ishaa_angle := 17, madhab := 1
             isha_interval := ⟨0, 0⟩, is_summer := false }
    d := 0 }

/-- A sample high-latitude summer context with a fixed-interval ishaa: the
sun barely sets (maghreb 23:00) and the 120-minute interval pushes the ishaa
decimal value past 24 hours. -/
def ctxWrap : Ctx :=
  { k := { eqt := fun _ => 0
           tfa := fun _ a =>
             if a = maghrebAngle then 11
             else if a = 108 then 58/5
             else 3
           asrAngle := fun _ _ => 45
           hijriMonth := fun _ => 8 }
    off := 0
    loc := ⟨0, 0⟩
    cfg := { fajr_angle := 18, ishaa_angle := 17, madhab := 1
             isha_interval := ⟨120, 150⟩, is_summer := false }
    d := 0 }

/-- A sample context whose equation of time differs between the
construction day and the next day, so tomorrow's fajr is one minute later
than today's. -/
def ctxDrift : Ctx :=
  { k := { eqt := fun d => if d = 0 then 0 else 1
           tfa := fun _ a =>
             if a = maghrebAngle then 6
             else if a = 108 then 15/2
             else 3
           asrAngle := fun _ _ => 45
           hijriMonth := fun _ => 8 }
    off := 0
    loc := ⟨0, 0⟩
    cfg := { fajr_angle := 18, ishaa_angle := 17, madhab := 1
             isha_interval := ⟨0, 0⟩, is_summer := false }
    d := 0 }

/-- A pre-dawn query instant on the day after `ctxGood`'s construction day:
02:00:00 of day 1. -/
def preDawn : DateTime := ⟨1, 2, 0, 0⟩

/-- A late-evening query instant on `ctxGood`'s construction day: 23:00:00
of day 0, after its ishaa. -/
def lateEvening : DateTime := ⟨0, 23, 0, 0⟩

/-- A sample well-ordered schedule record with literal instants (dohr noon,
asr 15:00, maghreb 18:00, ishaa 19:00, fajr 04:30, sherook 06:00, tomorrow's
fajr 04:30 on the next day). -/
def samplePT : PT :=
  { date := 0
    dohr := ⟨0, 12, 0, 0⟩
    asr := ⟨0, 15, 0, 0⟩
    maghreb := ⟨0, 18, 0, 0⟩
    ishaa := ⟨0, 19, 0, 0⟩
    fajr := ⟨0, 4, 30, 0⟩
    fajrTomorrow := ⟨1, 4, 30, 0⟩
    sherook := ⟨0, 6, 0, 0⟩
    firstThird := ⟨0, 21, 30, 0⟩
    midnight := ⟨0, 23, 15, 0⟩
    lastThird := ⟨0, 1, 2, 28⟩ }

lemma ratTrunc_of_nonneg {q : ℚ} (h : 0 ≤ q) : ratTrunc q = ⌊q⌋ := by
  unfold ratTrunc
  rw [if_neg (not_lt.mpr h)]

lemma asU32_small {q : ℚ} (h0 : 0 ≤ q) (h : q < 86400) : asU32 q = ⌊q⌋.toNat := by
  unfold asU32
  rw [if_neg (not_lt.mpr h0), ratTrunc_of_nonneg h0]
  have h1 : ⌊q⌋ < 86400 := Int.floor_lt.mpr (by exact_mod_cast h)
  have h2 : ⌊q⌋.toNat ≤ 4294967295 := by omega
  exact Nat.min_eq_left h2

lemma asU32_lt {q : ℚ} {n : ℕ} (hn : 0 < n) (h : q < n) : asU32 q < n := by
  unfold asU32
  by_cases hq : q < 0
  · rw [if_pos hq]; exact hn
  · rw [if_neg hq, ratTrunc_of_nonneg (not_lt.mp hq)]
    have h1 : ⌊q⌋ < (n : Int) := Int.floor_lt.mpr (by exact_mod_cast h)
    have h2 : ⌊q⌋.toNat < n := by omega
    exact lt_of_le_of_lt (min_le_left _ _) h2

lemma frac_nonneg (v : ℚ) : 0 ≤ v - (⌊v⌋ : ℚ) := by
  have := Int.floor_le v; linarith

lemma frac_lt_one (v : ℚ) : v - (⌊v⌋ : ℚ) < 1 := by
  have := Int.lt_floor_add_one v; linarith

lemma f32rem24_lt (a : ℚ) : f32rem a 24 < 24 := by
  unfold f32rem ratTrunc
  by_cases h : a / 24 < 0
  · rw [if_pos h]
    have h1 : (⌊-(a / 24)⌋ : ℚ) ≤ -(a / 24) := Int.floor_le _
    push_cast
    nlinarith
  · rw [if_neg h]
    have h2 : a / 24 < ⌊a / 24⌋ + 1 := Int.lt_floor_add_one _
    linarith

lemma f32rem24_nonneg {a : ℚ} (h : 0 ≤ a) : 0 ≤ f32rem a 24 := by
  unfold f32rem ratTrunc
  have hq : ¬(a / 24 < 0) := not_lt.mpr (by positivity)
  rw [if_neg hq]
  have h1 : (⌊a / 24⌋ : ℚ) ≤ a / 24 := Int.floor_le _
  linarith

/-- The decomposition performed by `hours_to_time`: hour, minute and second
floors recompose into the floor of the total number of seconds. -/
lemma secsDecomp (v : ℚ) :
    3600 * ⌊v⌋ + 60 * ⌊(v - (⌊v⌋ : ℚ)) * 60⌋
      + ⌊((v - (⌊v⌋ : ℚ)) * 60 - (⌊(v - (⌊v⌋ : ℚ)) * 60⌋ : ℚ)) * 60⌋
      = ⌊3600 * v⌋ := by
  have e1 : 3600 * v =
      ((v - (⌊v⌋ : ℚ)) * 60 - (⌊(v - (⌊v⌋ : ℚ)) * 60⌋ : ℚ)) * 60
        + ((3600 * ⌊v⌋ + 60 * ⌊(v - (⌊v⌋ : ℚ)) * 60⌋ : ℤ) : ℚ) := by
    push_cast; ring
  rw [e1, Int.floor_add_int]
  ring

lemma hours_to_time_eq (d : Int) (v : ℚ) (cfg : Config) :
    hours_to_time d v 0 cfg = some (httDT d v cfg) := by
  unfold hours_to_time httDT andHms
  have hv : v + 0 / 3600 = v := by norm_num
  rw [hv]
  have h1 : asU32 (f32rem ((⌊v + (if cfg.is_summer then (1 : ℚ) else 0)⌋ : ℚ)) 24) < 24 :=
    asU32_lt (by norm_num) (f32rem24_lt _)
  have h2 : asU32 ((v - (⌊v⌋ : ℚ)) * 60) < 60 :=
    asU32_lt (by norm_num) (by have := frac_lt_one v; push_cast; linarith)
  have h3 : asU32 (((v - (⌊v⌋ : ℚ)) * 60 - (⌊(v - (⌊v⌋ : ℚ)) * 60⌋ : ℚ)) * 60) < 60 :=
    asU32_lt (by norm_num) (by have := frac_lt_one ((v - (⌊v⌋ : ℚ)) * 60); push_cast; linarith)
  rw [if_pos ⟨h1, h2, h3⟩]

lemma ptNew_eq (c : Ctx) : ptNew c = some (ptVal c) := by
  unfold ptNew ptVal
  simp [hours_to_time_eq]

lemma f32rem_small {n : ℤ} (h0 : 0 ≤ n) (h : n < 24) : f32rem (n : ℚ) 24 = (n : ℚ) := by
  unfold f32rem
  rw [ratTrunc_of_nonneg (by positivity)]
  have hz : ⌊(n : ℚ) / 24⌋ = 0 := by
    rw [Int.floor_eq_zero_iff]
    constructor
    · positivity
    · rw [div_lt_one (by norm_num)]
      exact_mod_cast h
  rw [hz]
  push_cast
  ring

lemma f32rem_mid {n : ℤ} (h1 : 24 ≤ n) (h2 : n < 48) :
    f32rem (n : ℚ) 24 = ((n - 24 : ℤ) : ℚ) := by
  unfold f32rem
  rw [ratTrunc_of_nonneg (by positivity)]
  have hz : ⌊(n : ℚ) / 24⌋ = 1 := by
    have h1Q : (24 : ℚ) ≤ (n : ℚ) := by exact_mod_cast h1
    have h2Q : (n : ℚ) < 48 := by exact_mod_cast h2
    rw [Int.floor_eq_iff]
    constructor
    · rw [le_div_iff₀ (by norm_num)]
      push_cast
      linarith
    · rw [div_lt_iff₀ (by norm_num)]
      push_cast
      linarith
  rw [hz]
  push_cast
  ring

lemma f32rem_intCast_mod {n : ℤ} (hn : 0 ≤ n) :
    f32rem (n : ℚ) 24 = ((n % 24 : ℤ) : ℚ) := by
  unfold f32rem
  rw [ratTrunc_of_nonneg (by positivity)]
  have hdm : 24 * (n / 24) + n % 24 = n := Int.ediv_add_emod n 24
  have hdmQ : 24 * ((n / 24 : ℤ) : ℚ) + ((n % 24 : ℤ) : ℚ) = (n : ℚ) := by
    exact_mod_cast hdm
  have hr0 : (0 : ℚ) ≤ ((n % 24 : ℤ) : ℚ) := by
    exact_mod_cast Int.emod_nonneg n (by norm_num : (24 : ℤ) ≠ 0)
  have hr24 : ((n % 24 : ℤ) : ℚ) < 24 := by
    exact_mod_cast Int.emod_lt_of_pos n (by norm_num : (0 : ℤ) < 24)
  have hfl : ⌊(n : ℚ) / 24⌋ = n / 24 := by
    rw [Int.floor_eq_iff]
    constructor
    · rw [le_div_iff₀ (by norm_num)]
      linarith
    · rw [div_lt_iff₀ (by norm_num)]
      linarith
  rw [hfl]
  linarith

lemma instant_httDT (d : Int) (v : ℚ) (cfg : Config) (hs : cfg.is_summer = false)
    (h0 : 0 ≤ v) (h24 : v < 24) :
    instant (httDT d v cfg) = 86400 * d + ⌊3600 * v⌋ := by
  have hf0 : 0 ≤ ⌊v⌋ := Int.floor_nonneg.mpr h0
  have hf24 : ⌊v⌋ < 24 := Int.floor_lt.mpr (by exact_mod_cast h24)
  have hm0 : 0 ≤ (v - (⌊v⌋ : ℚ)) * 60 := by have := frac_nonneg v; linarith
  have hm60 : (v - (⌊v⌋ : ℚ)) * 60 < 86400 := by have := frac_lt_one v; linarith
  have hs0 : 0 ≤ ((v - (⌊v⌋ : ℚ)) * 60 - (⌊(v - (⌊v⌋ : ℚ)) * 60⌋ : ℚ)) * 60 := by
    have := frac_nonneg ((v - (⌊v⌋ : ℚ)) * 60); linarith
  have hs60 : ((v - (⌊v⌋ : ℚ)) * 60 - (⌊(v - (⌊v⌋ : ℚ)) * 60⌋ : ℚ)) * 60 < 86400 := by
    have := frac_lt_one ((v - (⌊v⌋ : ℚ)) * 60); linarith
  unfold httDT instant
  simp only [hs, Bool.false_eq_true, if_false, add_zero]
  rw [f32rem_small hf0 hf24]
  rw [asU32_small (by positivity) (by exact_mod_cast lt_trans hf24 (by norm_num))]
  rw [asU32_small hm0 hm60, asU32_small hs0 hs60]
  rw [Int.floor_intCast]
  have h1 : 0 ≤ ⌊(v - (⌊v⌋ : ℚ)) * 60⌋ := Int.floor_nonneg.mpr hm0
  have h2 : 0 ≤ ⌊((v - (⌊v⌋ : ℚ)) * 60 - (⌊(v - (⌊v⌋ : ℚ)) * 60⌋ : ℚ)) * 60⌋ :=
    Int.floor_nonneg.mpr hs0
  have hd := secsDecomp v
  omega

lemma httDT_sub24 (d : Int) (v : ℚ) (cfg : Config) (hs : cfg.is_summer = false)
    (h24 : 24 ≤ v) (h48 : v < 48) : httDT d v cfg = httDT d (v - 24) cfg := by
  have hfl : ⌊v - 24⌋ = ⌊v⌋ - 24 := by
    rw [show (24 : ℚ) = ((24 : ℤ) : ℚ) by norm_num, Int.floor_sub_int]
  have hf24 : 24 ≤ ⌊v⌋ := Int.le_floor.mpr (by exact_mod_cast h24)
  have hf48 : ⌊v⌋ < 48 := Int.floor_lt.mpr (by exact_mod_cast h48)
  have hm : v - (⌊v⌋ : ℚ) = (v - 24) - (⌊v - 24⌋ : ℚ) := by
    rw [hfl]; push_cast; ring
  unfold httDT
  simp only [hs, Bool.false_eq_true, if_false, add_zero]
  rw [hm, hfl, f32rem_mid hf24 hf48]
  have h2 : 0 ≤ ⌊v⌋ - 24 := by omega
  have h3 : ⌊v⌋ - 24 < 24 := by omega
  rw [f32rem_small h2 h3]

lemma instant_httDT24 (d : Int) (v : ℚ) (cfg : Config) (hs : cfg.is_summer = false)
    (h24 : 24 ≤ v) (h48 : v < 48) :
    instant (httDT d v cfg) = 86400 * d + ⌊3600 * (v - 24)⌋ := by
  rw [httDT_sub24 d v cfg hs h24 h48]
  exact instant_httDT d (v - 24) cfg hs (by linarith) (by linarith)

lemma httDT_summer (d : Int) (v : ℚ) (cfg : Config) (hs : cfg.is_summer = false)
    (h0 : 0 ≤ v) :
    (httDT d v { cfg with is_summer := true }).day = (httDT d v cfg).day ∧
    (httDT d v { cfg with is_summer := true }).h = ((httDT d v cfg).h + 1) % 24 ∧
    (httDT d v { cfg with is_summer := true }).m = (httDT d v cfg).m ∧
    (httDT d v { cfg with is_summer := true }).s = (httDT d v cfg).s := by
  have hfn : 0 ≤ ⌊v⌋ := Int.floor_nonneg.mpr h0
  unfold httDT
  simp only [hs, Bool.false_eq_true, if_false, if_true, add_zero]
  refine ⟨by trivial, ?_, by trivial, by trivial⟩
  rw [show v + (1 : ℚ) = v + ((1 : ℤ) : ℚ) by norm_num, Int.floor_add_int]
  rw [f32rem_intCast_mod (by omega : (0 : ℤ) ≤ ⌊v⌋ + 1), f32rem_intCast_mod hfn]
  have ha0 : 0 ≤ (⌊v⌋ + 1) % 24 := Int.emod_nonneg _ (by norm_num)
  have ha24 : (⌊v⌋ + 1) % 24 < 24 := Int.emod_lt_of_pos _ (by norm_num)
  have hb0 : 0 ≤ ⌊v⌋ % 24 := Int.emod_nonneg _ (by norm_num)
  have hb24 : ⌊v⌋ % 24 < 24 := Int.emod_lt_of_pos _ (by norm_num)
  rw [asU32_small (by positivity) (by exact_mod_cast lt_trans ha24 (by norm_num)),
      asU32_small (by positivity) (by exact_mod_cast lt_trans hb24 (by norm_num))]
  rw [Int.floor_intCast, Int.floor_intCast]
  omega

lemma httDT_eval {hh mm ss : ℕ} (d : Int) (v : ℚ) (cfg : Config)
    (hsum : cfg.is_summer = false)
    (hh24 : hh < 24) (hm60 : mm < 60) (hs60 : ss < 60)
    (hv : v = (hh : ℚ) + (mm : ℚ) / 60 + (ss : ℚ) / 3600) :
    httDT d v cfg = ⟨d, hh, mm, ss⟩ := by
  have hmQ : (mm : ℚ) < 60 := by exact_mod_cast hm60
  have hsQ : (ss : ℚ) < 60 := by exact_mod_cast hs60
  have hmQ2 : (mm : ℚ) ≤ 59 := by exact_mod_cast (by omega : mm ≤ 59)
  have hsQ2 : (ss : ℚ) ≤ 59 := by exact_mod_cast (by omega : ss ≤ 59)
  have hm0 : (0 : ℚ) ≤ (mm : ℚ) := by positivity
  have hs0 : (0 : ℚ) ≤ (ss : ℚ) := by positivity
  have hfl : ⌊v⌋ = (hh : ℤ) := by
    rw [hv, Int.floor_eq_iff]
    constructor
    · push_cast
      linarith
    · push_cast
      linarith
  have hmin : (v - (⌊v⌋ : ℚ)) * 60 = (mm : ℚ) + (ss : ℚ) / 60 := by
    rw [hfl, hv]
    push_cast
    ring
  have hfl2 : ⌊(mm : ℚ) + (ss : ℚ) / 60⌋ = (mm : ℤ) := by
    rw [Int.floor_eq_iff]
    constructor
    · push_cast
      linarith
    · push_cast
      linarith
  have hsec : ((mm : ℚ) + (ss : ℚ) / 60 - (⌊(mm : ℚ) + (ss : ℚ) / 60⌋ : ℚ)) * 60
      = (ss : ℚ) := by
    rw [hfl2]
    push_cast
    ring
  unfold httDT
  simp only [hsum, Bool.false_eq_true, if_false, add_zero]
  rw [hmin, hsec, hfl, f32rem_small (by positivity) (by exact_mod_cast hh24)]
  rw [asU32_small (by positivity) (by exact_mod_cast lt_trans hh24 (by norm_num)),
      asU32_small (by positivity) (by linarith),
      asU32_small (by positivity) (by linarith)]
  rw [hfl2, Int.floor_intCast, Int.floor_natCast]
  simp

lemma floorSecLt {a b : ℚ} (h : a + 1/3600 ≤ b) : ⌊3600 * a⌋ < ⌊3600 * b⌋ := by
  have h1 : 3600 * a + 1 ≤ 3600 * b := by linarith
  have h2 : ⌊3600 * a + 1⌋ ≤ ⌊3600 * b⌋ := Int.floor_le_floor h1
  rw [show (1 : ℚ) = ((1 : ℤ) : ℚ) by norm_num, Int.floor_add_int] at h2
  omega

/-- Claim C6: for every record and query instant, the next prayer is the
cyclic successor of the current prayer in the fixed order Fajr, Sherook,
Dohr, Asr, Maghreb, Ishaa and back to Fajr. -/
theorem next_is_cyclic_successor (pt : PT) (t : DateTime) :
    nextTime pt t = cyclicSucc (currentTime pt t) := by
  unfold nextTime cyclicSucc
  cases currentTime pt t <;> rfl

/-- Claim C4: when `isha_interval.all_year > 0`, the ishaa decimal time is
the maghreb decimal time plus the Ramadan minute value over 60 when the
Hijri month is 9 and the all-year value over 60 otherwise; when
`all_year = 0`, it is dohr plus the hour angle of `ishaa_angle + 90`
degrees. -/
theorem ishaa_branches (c : Ctx) :
    (0 < c.cfg.isha_interval.all_year →
      ishaa_time c = maghreb_time c
        + (if c.k.hijriMonth c.d = 9 then c.cfg.isha_interval.ramdan
           else c.cfg.isha_interval.all_year) / 60) ∧
    (c.cfg.isha_interval.all_year = 0 →
      ishaa_time c = dohr_time c + c.k.tfa c.d (c.cfg.ishaa_angle + 90)) := by
  constructor
  · intro h
    simp only [ishaa_time, maghreb_time]
    rw [if_pos h]
    by_cases hm : c.k.hijriMonth c.d = 9
    · rw [if_pos hm, if_pos hm]
      ring
    · rw [if_neg hm, if_neg hm]
      ring
  · intro h
    simp only [ishaa_time]
    rw [if_neg (by rw [h]; exact lt_irrefl 0)]

theorem ishaa_branches_witness :
    ((0 : ℚ) < ctxWrap.cfg.isha_interval.all_year ∧
      ishaa_time ctxWrap = maghreb_time ctxWrap + 2) ∧
    (ctxGood.cfg.isha_interval.all_year = 0 ∧
      ishaa_time ctxGood = dohr_time ctxGood + ctxGood.k.tfa ctxGood.d (ctxGood.cfg.ishaa_angle + 90)) := by
  constructor
  · refine ⟨by norm_num [ctxWrap], ?_⟩
    have h := (ishaa_branches ctxWrap).1 (by norm_num [ctxWrap])
    rw [h]
    norm_num [ctxWrap]
  · exact ⟨by norm_num [ctxGood], (ishaa_branches ctxGood).2 (by norm_num [ctxGood])⟩

/-- Claim C3 counterexample: a construction succeeds (with tomorrow's fajr
one minute later than today's) for which the midnight instant is not
halfway, in elapsed seconds, between the maghreb instant and the
fajr-tomorrow instant. -/
theorem midnight_not_midpoint_of_fajr_tomorrow :
    ∃ pt : PT, ptNew ctxDrift = some pt ∧
      instant pt.midnight - instant pt.maghreb
        ≠ instant pt.fajrTomorrow - instant pt.midnight := by
  refine ⟨ptVal ctxDrift, ptNew_eq ctxDrift, ?_⟩
  have hM : (ptVal ctxDrift).maghreb = ⟨0, 18, 0, 0⟩ := by
    show httDT ctxDrift.d (maghreb_time ctxDrift) ctxDrift.cfg = _
    exact httDT_eval _ _ _ rfl (by norm_num) (by norm_num) (by norm_num)
      (by norm_num [maghreb_time, dohr_time, dohr_time_on, longitude_difference,
                    maghrebAngle, ctxDrift])
  have hMid : (ptVal ctxDrift).midnight = ⟨0, 23, 15, 0⟩ := by
    show httDT ctxDrift.d (midnight_time ctxDrift) ctxDrift.cfg = _
    exact httDT_eval _ _ _ rfl (by norm_num) (by norm_num) (by norm_num)
      (by norm_num [midnight_time, maghreb_time, fajr_time, fajr_time_on, dohr_time,
                    dohr_time_on, longitude_difference, maghrebAngle, ctxDrift])
  have hFT : (ptVal ctxDrift).fajrTomorrow = ⟨1, 4, 31, 0⟩ := by
    show httDT (ctxDrift.d + 1) (fajr_time_on ctxDrift (ctxDrift.d + 1)) ctxDrift.cfg = _
    exact httDT_eval _ _ _ rfl (by norm_num) (by norm_num) (by norm_num)
      (by norm_num [fajr_time_on, dohr_time_on, longitude_difference, ctxDrift,
                    maghrebAngle])
  rw [hM, hMid, hFT]
  decide

/-- Claim C3 (amended): the midnight decimal time is exactly halfway
between the maghreb decimal time and the construction day's own fajr
decimal time shifted forward by 24 hours — not tomorrow's recomputed
fajr. -/
theorem midnight_midpoint_of_today_fajr (c : Ctx) :
    midnight_time c = (maghreb_time c + (fajr_time c + 24)) / 2 := by
  unfold midnight_time
  ring

lemma currentTime_unfold (pt : PT) (t : DateTime) :
    currentTime pt t =
      (if instant pt.ishaa ≤ instant t ∧ instant t < instant pt.fajrTomorrow then Prayer.Ishaa
       else if instant pt.maghreb ≤ instant t ∧ instant t < instant pt.ishaa then Prayer.Maghreb
       else if instant pt.asr ≤ instant t ∧ instant t < instant pt.maghreb then Prayer.Asr
       else if instant pt.dohr ≤ instant t ∧ instant t < instant pt.asr then Prayer.Dohr
       else if instant pt.sherook ≤ instant t ∧ instant t < instant pt.dohr then Prayer.Sherook
       else if instant pt.fajr ≤ instant t ∧ instant t < instant pt.sherook then Prayer.Fajr
       else Prayer.Dohr) := rfl

/-- Claim C1: for every record whose seven instants are strictly increasing
and every query instant within the 24-hour window from fajr (inclusive) to
tomorrow's fajr (exclusive), the lookup returns exactly the prayer of the
half-open interval containing the instant, so the no-match fallback value is
never observably reached; in particular every instant from ishaa up to
tomorrow's fajr — the pre-dawn hours — is classified as Ishaa by consulting
fajr_tomorrow. -/
theorem current_lookup_covers_window (pt : PT) (t : DateTime)
    (o1 : instant pt.fajr < instant pt.sherook)
    (o2 : instant pt.sherook < instant pt.dohr)
    (o3 : instant pt.dohr < instant pt.asr)
    (o4 : instant pt.asr < instant pt.maghreb)
    (o5 : instant pt.maghreb < instant pt.ishaa)
    (o6 : instant pt.ishaa < instant pt.fajrTomorrow)
    (hw1 : instant pt.fajr ≤ instant t)
    (hw2 : instant t < instant pt.fajrTomorrow) :
    (∃ p, intervalOfSpec pt t = some p ∧ currentTime pt t = p) ∧
    (instant pt.ishaa ≤ instant t → currentTime pt t = Prayer.Ishaa) := by
  rw [currentTime_unfold]
  unfold intervalOfSpec
  split_ifs
  all_goals
    first
      | exact ⟨⟨_, rfl, rfl⟩, fun _ => rfl⟩
      | exact ⟨⟨_, rfl, rfl⟩, fun hI => absurd hI (by omega)⟩
      | (exfalso; omega)

theorem current_lookup_covers_window_witness :
    (∃ p, intervalOfSpec samplePT preDawn = some p ∧
        currentTime samplePT preDawn = p) ∧
    (instant samplePT.ishaa ≤ instant preDawn →
        currentTime samplePT preDawn = Prayer.Ishaa) :=
  current_lookup_covers_window samplePT preDawn (by decide) (by decide) (by decide)
    (by decide) (by decide) (by decide) (by decide) (by decide)

/-- Claim C2 counterexample: construction succeeds on a high-latitude
fixed-interval context where the ishaa decimal value 25 wraps modulo 24 to
an 01:00 instant on the construction date, so the instants of the record
are not strictly increasing (maghreb 23:00 is not before ishaa). -/
theorem ordering_invariant_fails_on_wrap :
    ∃ pt : PT, ptNew ctxWrap = some pt ∧
      ¬ (instant pt.fajr < instant pt.sherook ∧
         instant pt.sherook < instant pt.dohr ∧
         instant pt.dohr < instant pt.asr ∧
         instant pt.asr < instant pt.maghreb ∧
         instant pt.maghreb < instant pt.ishaa ∧
         instant pt.ishaa < instant pt.fajrTomorrow) := by
  refine ⟨ptVal ctxWrap, ptNew_eq ctxWrap, ?_⟩
  have hM : (ptVal ctxWrap).maghreb = ⟨0, 23, 0, 0⟩ := by
    show httDT ctxWrap.d (maghreb_time ctxWrap) ctxWrap.cfg = _
    exact httDT_eval _ _ _ rfl (by norm_num) (by norm_num) (by norm_num)
      (by norm_num [maghreb_time, dohr_time, dohr_time_on, longitude_difference,
                    maghrebAngle, ctxWrap])
  have hI : (ptVal ctxWrap).ishaa = ⟨0, 1, 0, 0⟩ := by
    show httDT ctxWrap.d (ishaa_time ctxWrap) ctxWrap.cfg = _
    rw [httDT_sub24 _ _ _ rfl
      (by norm_num [ishaa_time, dohr_time, dohr_time_on, longitude_difference,
                    maghrebAngle, ctxWrap])
      (by norm_num [ishaa_time, dohr_time, dohr_time_on, longitude_difference,
                    maghrebAngle, ctxWrap])]
    exact httDT_eval _ _ _ rfl (by norm_num) (by norm_num) (by norm_num)
      (by norm_num [ishaa_time, dohr_time, dohr_time_on, longitude_difference,
                    maghrebAngle, ctxWrap])
  rintro ⟨-, -, -, -, h5, -⟩
  rw [hM, hI] at h5
  exact absurd h5 (by decide)

/-- Claim C2 (amended): the instants of a successfully constructed record
are strictly increasing provided the underlying decimal-hour values are
themselves increasing with at least one second between consecutive values,
none of them crosses the 24-hour boundary, tomorrow's fajr value is itself
a time of day, and the summer flag is off. -/
theorem ordering_invariant_of_bounded (c : Ctx)
    (hsum : c.cfg.is_summer = false)
    (h0 : 0 ≤ fajr_time c)
    (h1 : fajr_time c + 1/3600 ≤ sherook_time c)
    (h2 : sherook_time c + 1/3600 ≤ dohr_time c)
    (h3 : dohr_time c + 1/3600 ≤ asr_time c)
    (h4 : asr_time c + 1/3600 ≤ maghreb_time c)
    (h5 : maghreb_time c + 1/3600 ≤ ishaa_time c)
    (h6 : ishaa_time c < 24)
    (h7 : 0 ≤ fajr_time_on c (c.d + 1))
    (h8 : fajr_time_on c (c.d + 1) < 24) :
    ∀ pt : PT, ptNew c = some pt →
      instant pt.fajr < instant pt.sherook ∧
      instant pt.sherook < instant pt.dohr ∧
      instant pt.dohr < instant pt.asr ∧
      instant pt.asr < instant pt.maghreb ∧
      instant pt.maghreb < instant pt.ishaa ∧
      instant pt.ishaa < instant pt.fajrTomorrow := by
  intro pt hpt
  rw [ptNew_eq] at hpt
  obtain rfl : ptVal c = pt := by injection hpt
  have e1 := instant_httDT c.d (fajr_time c) c.cfg hsum h0 (by linarith)
  have e2 := instant_httDT c.d (sherook_time c) c.cfg hsum (by linarith) (by linarith)
  have e3 := instant_httDT c.d (dohr_time c) c.cfg hsum (by linarith) (by linarith)
  have e4 := instant_httDT c.d (asr_time c) c.cfg hsum (by linarith) (by linarith)
  have e5 := instant_httDT c.d (maghreb_time c) c.cfg hsum (by linarith) (by linarith)
  have e6 := instant_httDT c.d (ishaa_time c) c.cfg hsum (by linarith) h6
  have e7 := instant_httDT (c.d + 1) (fajr_time_on c (c.d + 1)) c.cfg hsum h7 h8
  have g1 := floorSecLt h1
  have g2 := floorSecLt h2
  have g3 := floorSecLt h3
  have g4 := floorSecLt h4
  have g5 := floorSecLt h5
  have gI : ⌊3600 * ishaa_time c⌋ < 86400 := by
    have : (3600 : ℚ) * ishaa_time c < 86400 := by linarith
    exact Int.floor_lt.mpr (by exact_mod_cast this)
  have gF : 0 ≤ ⌊3600 * fajr_time_on c (c.d + 1)⌋ :=
    Int.floor_nonneg.mpr (by positivity)
  show instant (ptVal c).fajr < instant (ptVal c).sherook ∧ _
  unfold ptVal
  simp only
  rw [e1, e2, e3, e4, e5, e6, e7]
  omega

theorem ordering_invariant_of_bounded_witness :
    instant (ptVal ctxGood).fajr < instant (ptVal ctxGood).sherook ∧
    instant (ptVal ctxGood).sherook < instant (ptVal ctxGood).dohr ∧
    instant (ptVal ctxGood).dohr < instant (ptVal ctxGood).asr ∧
    instant (ptVal ctxGood).asr < instant (ptVal ctxGood).maghreb ∧
    instant (ptVal ctxGood).maghreb < instant (ptVal ctxGood).ishaa ∧
    instant (ptVal ctxGood).ishaa < instant (ptVal ctxGood).fajrTomorrow :=
  ordering_invariant_of_bounded ctxGood rfl
    (by norm_num [fajr_time, fajr_time_on, dohr_time, dohr_time_on,
                  longitude_difference, maghrebAngle, ctxGood])
    (by norm_num [fajr_time, fajr_time_on, sherook_time, dohr_time, dohr_time_on,
                  longitude_difference, maghrebAngle, ctxGood])
    (by norm_num [sherook_time, dohr_time, dohr_time_on,
                  longitude_difference, maghrebAngle, ctxGood])
    (by norm_num [asr_time, dohr_time, dohr_time_on,
                  longitude_difference, maghrebAngle, ctxGood])
    (by norm_num [asr_time, maghreb_time, dohr_time, dohr_time_on,
                  longitude_difference, maghrebAngle, ctxGood])
    (by norm_num [maghreb_time, ishaa_time, dohr_time, dohr_time_on,
                  longitude_difference, maghrebAngle, ctxGood])
    (by norm_num [ishaa_time, dohr_time, dohr_time_on,
                  longitude_difference, maghrebAngle, ctxGood])
    (by norm_num [fajr_time_on, dohr_time_on,
                  longitude_difference, maghrebAngle, ctxGood])
    (by norm_num [fajr_time_on, dohr_time_on,
                  longitude_difference, maghrebAngle, ctxGood])
    (ptVal ctxGood) (ptNew_eq ctxGood)

/-- Claim C10: every instant of the record except fajr_tomorrow carries the
construction day as its date component (fajr_tomorrow carries the next
day), and a night instant whose decimal value exceeds 24 hours — here the
last third of the night — is reduced modulo 24 and recorded on the
construction date as an early-morning clock time, numerically earlier than
the record's own fajr (stated here with the values at least one second
apart, the granularity of the stored instants). -/
theorem instants_carry_construction_date (c : Ctx)
    (hsum : c.cfg.is_summer = false)
    (hLa : 24 ≤ last_third_time c) (hLb : last_third_time c < 48)
    (hFa : 0 ≤ fajr_time c) (hFb : fajr_time c < 24)
    (hgap : last_third_time c + 1/3600 ≤ 24 + fajr_time c) :
    ∀ pt : PT, ptNew c = some pt →
      (pt.dohr.day = c.d ∧ pt.asr.day = c.d ∧ pt.maghreb.day = c.d ∧
       pt.ishaa.day = c.d ∧ pt.fajr.day = c.d ∧ pt.sherook.day = c.d ∧
       pt.firstThird.day = c.d ∧ pt.midnight.day = c.d ∧
       pt.lastThird.day = c.d ∧ pt.fajrTomorrow.day = c.d + 1) ∧
      instant pt.lastThird < instant pt.fajr := by
  intro pt hpt
  rw [ptNew_eq] at hpt
  obtain rfl : ptVal c = pt := by injection hpt
  constructor
  · exact ⟨rfl, rfl, rfl, rfl, rfl, rfl, rfl, rfl, rfl, rfl⟩
  · have eL := instant_httDT24 c.d (last_third_time c) c.cfg hsum hLa hLb
    have eF := instant_httDT c.d (fajr_time c) c.cfg hsum hFa hFb
    have g := floorSecLt (show (last_third_time c - 24) + 1/3600 ≤ fajr_time c by linarith)
    show instant (ptVal c).lastThird < instant (ptVal c).fajr
    unfold ptVal
    simp only
    rw [eL, eF]
    omega

theorem instants_carry_construction_date_witness :
    (((ptVal ctxGood).dohr.day = ctxGood.d ∧ (ptVal ctxGood).asr.day = ctxGood.d ∧
      (ptVal ctxGood).maghreb.day = ctxGood.d ∧ (ptVal ctxGood).ishaa.day = ctxGood.d ∧
      (ptVal ctxGood).fajr.day = ctxGood.d ∧ (ptVal ctxGood).sherook.day = ctxGood.d ∧
      (ptVal ctxGood).firstThird.day = ctxGood.d ∧ (ptVal ctxGood).midnight.day = ctxGood.d ∧
      (ptVal ctxGood).lastThird.day = ctxGood.d ∧
      (ptVal ctxGood).fajrTomorrow.day = ctxGood.d + 1) ∧
     instant (ptVal ctxGood).lastThird < instant (ptVal ctxGood).fajr) :=
  instants_carry_construction_date ctxGood rfl
    (by norm_num [last_third_time, maghreb_time, fajr_time, fajr_time_on, dohr_time,
                  dohr_time_on, longitude_difference, maghrebAngle, ctxGood])
    (by norm_num [last_third_time, maghreb_time, fajr_time, fajr_time_on, dohr_time,
                  dohr_time_on, longitude_difference, maghrebAngle, ctxGood])
    (by norm_num [fajr_time, fajr_time_on, dohr_time, dohr_time_on,
                  longitude_difference, maghrebAngle, ctxGood])
    (by norm_num [fajr_time, fajr_time_on, dohr_time, dohr_time_on,
                  longitude_difference, maghrebAngle, ctxGood])
    (by norm_num [last_third_time, maghreb_time, fajr_time, fajr_time_on, dohr_time,
                  dohr_time_on, longitude_difference, maghrebAngle, ctxGood])
    (ptVal ctxGood) (ptNew_eq ctxGood)

/-- Claim C8: switching on the summer flag, with every other input held
fixed, shifts every computed instant of the record by exactly one hour —
hour advanced modulo 24, date, minute and second unchanged (stated for
non-negative decimal values, where the source's float remainder agrees with
the mathematical one). -/
theorem summer_shifts_one_hour (c : Ctx)
    (hsum : c.cfg.is_summer = false)
    (h1 : 0 ≤ dohr_time c) (h2 : 0 ≤ asr_time c) (h3 : 0 ≤ maghreb_time c)
    (h4 : 0 ≤ ishaa_time c) (h5 : 0 ≤ fajr_time c) (h6 : 0 ≤ sherook_time c)
    (h7 : 0 ≤ first_third_time c) (h8 : 0 ≤ midnight_time c)
    (h9 : 0 ≤ last_third_time c) (h10 : 0 ≤ fajr_time_on c (c.d + 1)) :
    ∀ pt pts : PT, ptNew c = some pt → ptNew (summerCtx c) = some pts →
      shifted pts.dohr pt.dohr ∧ shifted pts.asr pt.asr ∧
      shifted pts.maghreb pt.maghreb ∧ shifted pts.ishaa pt.ishaa ∧
      shifted pts.fajr pt.fajr ∧ shifted pts.sherook pt.sherook ∧
      shifted pts.firstThird pt.firstThird ∧ shifted pts.midnight pt.midnight ∧
      shifted pts.lastThird pt.lastThird ∧
      shifted pts.fajrTomorrow pt.fajrTomorrow := by
  intro pt pts hpt hpts
  rw [ptNew_eq] at hpt hpts
  obtain rfl : ptVal c = pt := by injection hpt
  obtain rfl : ptVal (summerCtx c) = pts := by injection hpts
  exact ⟨httDT_summer c.d (dohr_time c) c.cfg hsum h1,
         httDT_summer c.d (asr_time c) c.cfg hsum h2,
         httDT_summer c.d (maghreb_time c) c.cfg hsum h3,
         httDT_summer c.d (ishaa_time c) c.cfg hsum h4,
         httDT_summer c.d (fajr_time c) c.cfg hsum h5,
         httDT_summer c.d (sherook_time c) c.cfg hsum h6,
         httDT_summer c.d (first_third_time c) c.cfg hsum h7,
         httDT_summer c.d (midnight_time c) c.cfg hsum h8,
         httDT_summer c.d (last_third_time c) c.cfg hsum h9,
         httDT_summer (c.d + 1) (fajr_time_on c (c.d + 1)) c.cfg hsum h10⟩

theorem summer_shifts_one_hour_witness :
    shifted (ptVal (summerCtx ctxGood)).dohr (ptVal ctxGood).dohr ∧
    shifted (ptVal (summerCtx ctxGood)).asr (ptVal ctxGood).asr ∧
    shifted (ptVal (summerCtx ctxGood)).maghreb (ptVal ctxGood).maghreb ∧
    shifted (ptVal (summerCtx ctxGood)).ishaa (ptVal ctxGood).ishaa ∧
    shifted (ptVal (summerCtx ctxGood)).fajr (ptVal ctxGood).fajr ∧
    shifted (ptVal (summerCtx ctxGood)).sherook (ptVal ctxGood).sherook ∧
    shifted (ptVal (summerCtx ctxGood)).firstThird (ptVal ctxGood).firstThird ∧
    shifted (ptVal (summerCtx ctxGood)).midnight (ptVal ctxGood).midnight ∧
    shifted (ptVal (summerCtx ctxGood)).lastThird (ptVal ctxGood).lastThird ∧
    shifted (ptVal (summerCtx ctxGood)).fajrTomorrow (ptVal ctxGood).fajrTomorrow :=
  summer_shifts_one_hour ctxGood rfl
    (by norm_num [dohr_time, dohr_time_on, longitude_difference, ctxGood])
    (by norm_num [asr_time, dohr_time, dohr_time_on, longitude_difference,
                  maghrebAngle, ctxGood])
    (by norm_num [maghreb_time, dohr_time, dohr_time_on, longitude_difference,
                  maghrebAngle, ctxGood])
    (by norm_num [ishaa_time, dohr_time, dohr_time_on, longitude_difference,
                  maghrebAngle, ctxGood])
    (by norm_num [fajr_time, fajr_time_on, dohr_time_on, longitude_difference,
                  maghrebAngle, ctxGood])
    (by norm_num [sherook_time, dohr_time, dohr_time_on, longitude_difference,
                  maghrebAngle, ctxGood])
    (by norm_num [first_third_time, maghreb_time, fajr_time, fajr_time_on, dohr_time,
                  dohr_time_on, longitude_difference, maghrebAngle, ctxGood])
    (by norm_num [midnight_time, maghreb_time, fajr_time, fajr_time_on, dohr_time,
                  dohr_time_on, longitude_difference, maghrebAngle, ctxGood])
    (by norm_num [last_third_time, maghreb_time, fajr_time, fajr_time_on, dohr_time,
                  dohr_time_on, longitude_difference, maghrebAngle, ctxGood])
    (by norm_num [fajr_time_on, dohr_time_on, longitude_difference,
                  maghrebAngle, ctxGood])
    (ptVal ctxGood) (ptVal (summerCtx ctxGood)) (ptNew_eq ctxGood)
    (ptNew_eq (summerCtx ctxGood))

/-- Claim C5: when the next prayer's instant is numerically earlier than
the query instant (the next prayer is tomorrow's fajr), the remaining time
in seconds equals the time from now to one second before midnight plus the
time from the start of the next day to the target's time-of-day on that
next day; and the remaining duration is never negative (for a well-formed
query instant and a target recorded on the query instant's day). -/
theorem time_remaining_wrap_formula (pt : PT) (now : DateTime)
    (hnow : wf now)
    (hday : (timeOf pt (nextTime pt now)).day = now.day)
    (hwf2 : wf (timeOf pt (nextTime pt now))) :
    0 ≤ timeRemainingSecs pt now ∧
    (instant (timeOf pt (nextTime pt now)) < instant now →
      timeRemainingSecs pt now =
        (instant (oneSecBeforeMidnight now) - instant now)
          + (instant (onDay (timeOf pt (nextTime pt now)) (now.day + 1))
             - instant (⟨now.day + 1, 0, 0, 0⟩ : DateTime))) := by
  obtain ⟨a1, a2, a3⟩ := hnow
  obtain ⟨b1, b2, b3⟩ := hwf2
  constructor
  · simp only [timeRemainingSecs, instant, oneSecBeforeMidnight, midnightOf]
    split_ifs with hlt
    · omega
    · omega
  · intro hlt
    simp only [instant] at hlt
    simp only [timeRemainingSecs, instant, oneSecBeforeMidnight, midnightOf, onDay]
    split_ifs with hc
    all_goals omega

theorem time_remaining_wrap_formula_witness :
    0 ≤ timeRemainingSecs samplePT lateEvening ∧
    (instant (timeOf samplePT (nextTime samplePT lateEvening)) < instant lateEvening →
      timeRemainingSecs samplePT lateEvening =
        (instant (oneSecBeforeMidnight lateEvening) - instant lateEvening)
          + (instant (onDay (timeOf samplePT (nextTime samplePT lateEvening))
               (lateEvening.day + 1))
             - instant (⟨lateEvening.day + 1, 0, 0, 0⟩ : DateTime))) :=
  time_remaining_wrap_formula samplePT lateEvening (by decide) (by decide) (by decide)

/-- Claim C9: whenever the cosine-rule quotient is a well-defined real
number strictly between -1 and 1, the hour-angle conversion returns a
non-negative number of hours. -/
theorem time_for_angle_nonneg (angle lat delta : ℝ)
    (hlo : -1 < sQuot angle lat delta) (hhi : sQuot angle lat delta < 1) :
    0 ≤ timeForAngleR angle lat delta := by
  simp only [timeForAngleR]
  have hpi : 0 < Real.pi := Real.pi_pos
  have h1 : -(Real.pi / 2) < Real.arctan (-(sQuot angle lat delta)
      / Real.sqrt ((-(sQuot angle lat delta)) * (sQuot angle lat delta) + 1)) :=
    Real.neg_pi_div_two_lt_arctan _
  have h3 : (0 : ℝ) < 180 / Real.pi := by positivity
  have h4 := mul_pos h3 (by linarith :
    (0 : ℝ) < Real.arctan (-(sQuot angle lat delta)
      / Real.sqrt ((-(sQuot angle lat delta)) * (sQuot angle lat delta) + 1))
        + Real.pi / 2)
  linarith

theorem time_for_angle_nonneg_witness :
    ((-1 : ℝ) < sQuot 90 0 0 ∧ sQuot 90 0 0 < 1) ∧ 0 ≤ timeForAngleR 90 0 0 := by
  have hs : sQuot 90 0 0 = 0 := by
    unfold sQuot dsinR dcosR
    rw [show (90 : ℝ) * (Real.pi / 180) = Real.pi / 2 by ring,
        show (0 : ℝ) * (Real.pi / 180) = 0 by ring,
        Real.cos_pi_div_two, Real.sin_zero, Real.cos_zero]
    norm_num
  refine ⟨⟨by rw [hs]; norm_num, by rw [hs]; norm_num⟩, ?_⟩
  exact time_for_angle_nonneg 90 0 0 (by rw [hs]; norm_num) (by rw [hs]; norm_num)
